import Mathlib

/-!
Shallow embedding of `src/Global_USVs_Linkedin_v0.py`, a Streamlit dashboard
that loads a CSV of uncrewed surface vessels, fans out same-country markers
around their coordinates (`apply_jitter`), and keeps a map viewport in sync
with a country filter and two buttons ("Zoom to All", "Clear Filter").

Numeric CSV fields and coordinates are modelled as rationals.  The script's
calls to `np.sin` / `np.cos` / `np.pi` are modelled by explicit function
parameters `sin cos : ℚ → ℚ` and `pi : ℚ`, so every statement about the
layout holds for every interpretation of the trigonometric primitives; only
the structure of the computation (which angle is fed to which record, which
fields change) comes from the source.
-/

namespace GlobalUSVs

/-! ## Data model

A parsed CSV row after `load_data` (coordinates present), mirroring the
columns used by the script: Name, Manufacturer, Country, "Max. Length (m)",
Latitude, Longitude. -/

structure Row where
  name : String
  manufacturer : String
  country : String
  maxLength : ℚ
  latitude : ℚ
  longitude : ℚ
deriving DecidableEq

/-- A raw CSV row before `dropna`: Latitude/Longitude cells may be missing
(`none` models a NaN cell). -/
structure RawRow where
  name : String
  manufacturer : String
  country : String
  maxLength : ℚ
  latitude : Option ℚ
  longitude : Option ℚ
deriving DecidableEq

/-- Does the raw row carry usable coordinates?  (`dropna(subset=["Latitude",
"Longitude"])` keeps exactly the rows where both cells are non-null.) -/
def hasCoords (r : RawRow) : Bool :=
  r.latitude.isSome && r.longitude.isSome

/-- View a raw row that carries coordinates as a placed `Row`. -/
def placeRow (r : RawRow) : Row :=
  { name := r.name
    manufacturer := r.manufacturer
    country := r.country
    maxLength := r.maxLength
    latitude := r.latitude.getD 0
    longitude := r.longitude.getD 0 }

/-- Embedding of `load_data` (lines 49-53): parse rows, then
`df.dropna(subset=["Latitude", "Longitude"])`.  The parsed rows arrive as the
argument; the function keeps exactly the rows with both coordinate cells
present.  It is total: a row that fails to resolve is dropped, never fatal. -/
def load_data (rows : List RawRow) : List Row :=
  (rows.filter hasCoords).map placeRow

/-! ## Decoding model for `pd.read_csv(..., encoding="utf-8")`

`load_data` reads the CSV with exactly one encoding attempt, `utf-8`
(line 51).  The byte-level decode step is modelled here: `utf8Decode`
performs standard UTF-8 validation/decoding (RFC 3629 ranges), returning
`none` on the first malformed sequence; `latin1Decode` is the single-byte
fallback the spec asks for, which maps every byte to its own code point and
therefore never fails. -/

/-- Is `b` a UTF-8 continuation byte (`0x80..0xBF`)? -/
def isCont (b : Nat) : Bool := 0x80 ≤ b && b ≤ 0xBF

/-- Allowed first-continuation ranges for a three-byte lead `b` (excludes
overlong forms after `0xE0` and surrogates after `0xED`). -/
def utf8Lead3Ok (b b1 : Nat) : Bool :=
  if b = 0xE0 then 0xA0 ≤ b1 && b1 ≤ 0xBF
  else if b = 0xED then 0x80 ≤ b1 && b1 ≤ 0x9F
  else isCont b1

/-- Allowed first-continuation ranges for a four-byte lead `b` (excludes
overlong forms after `0xF0` and code points above U+10FFFF after `0xF4`). -/
def utf8Lead4Ok (b b1 : Nat) : Bool :=
  if b = 0xF0 then 0x90 ≤ b1 && b1 ≤ 0xBF
  else if b = 0xF4 then 0x80 ≤ b1 && b1 ≤ 0x8F
  else isCont b1

mutual

/-- Decode a UTF-8 byte sequence into code points; `none` on malformed
input.  Lead-byte and continuation ranges follow RFC 3629 (no overlong
forms, no surrogates, max U+10FFFF).  The continuation bytes of a
multi-byte sequence are consumed one at a time by the helpers below. -/
def utf8Decode : List Nat → Option (List Nat)
  | [] => some []
  | b :: rest =>
    if b ≤ 0x7F then
      (utf8Decode rest).map (fun cs => b :: cs)
    else if 0xC2 ≤ b && b ≤ 0xDF then utf8Two b rest
    else if 0xE0 ≤ b && b ≤ 0xEF then utf8Three b rest
    else if 0xF0 ≤ b && b ≤ 0xF4 then utf8Four b rest
    else none

/-- Continuation byte of a two-byte sequence with lead `b`. -/
def utf8Two (b : Nat) : List Nat → Option (List Nat)
  | b1 :: rest1 =>
    if isCont b1 then
      (utf8Decode rest1).map (fun cs => ((b - 0xC0) * 0x40 + (b1 - 0x80)) :: cs)
    else none
  | [] => none

/-- First continuation byte of a three-byte sequence with lead `b`. -/
def utf8Three (b : Nat) : List Nat → Option (List Nat)
  | b1 :: rest => utf8ThreeB b b1 rest
  | [] => none

/-- Second continuation byte of a three-byte sequence. -/
def utf8ThreeB (b b1 : Nat) : List Nat → Option (List Nat)
  | b2 :: rest2 =>
    if utf8Lead3Ok b b1 && isCont b2 then
      (utf8Decode rest2).map
        (fun cs => ((b - 0xE0) * 0x1000 + (b1 - 0x80) * 0x40 + (b2 - 0x80)) :: cs)
    else none
  | [] => none

/-- First continuation byte of a four-byte sequence with lead `b`. -/
def utf8Four (b : Nat) : List Nat → Option (List Nat)
  | b1 :: rest => utf8FourB b b1 rest
  | [] => none

/-- Second continuation byte of a four-byte sequence. -/
def utf8FourB (b b1 : Nat) : List Nat → Option (List Nat)
  | b2 :: rest => utf8FourC b b1 b2 rest
  | [] => none

/-- Third continuation byte of a four-byte sequence. -/
def utf8FourC (b b1 b2 : Nat) : List Nat → Option (List Nat)
  | b3 :: rest3 =>
    if utf8Lead4Ok b b1 && isCont b2 && isCont b3 then
      (utf8Decode rest3).map
        (fun cs => ((b - 0xF0) * 0x40000 + (b1 - 0x80) * 0x1000 +
                    (b2 - 0x80) * 0x40 + (b3 - 0x80)) :: cs)
    else none
  | [] => none

end

/-- The single-byte fallback decode (e.g. latin-1): every byte is its own
code point, so it succeeds on every input. -/
def latin1Decode (bytes : List Nat) : List Nat := bytes

/-- Embedding of the decode step of `load_data` as written (line 51):
exactly one attempt, with `encoding="utf-8"`; no fallback. -/
def load_decode (bytes : List Nat) : Option (List Nat) :=
  utf8Decode bytes

/-- Modelled from the spec (refinement comparison): the load step the spec
describes, which falls back to a single-byte encoding when the primary
utf-8 decode fails.  This definition follows the spec's words and exists
only to be compared with `load_decode`, the decode step the source performs. -/
def load_decode_with_fallback (bytes : List Nat) : Option (List Nat) :=
  match utf8Decode bytes with
  | some cs => some cs
  | none => some (latin1Decode bytes)

/-! ## Layout engine: `apply_jitter` (lines 57-71)

The script groups `df` by the raw `Country` column (`df.groupby("Country")`
iterates groups in ascending key order, each group keeping the original row
order), leaves singleton groups untouched, and otherwise adds
`jitter_amount * sin(angle)` / `jitter_amount * cos(angle)` to each row's own
Latitude / Longitude, where the angles come from
`np.linspace(0, 2*pi, count, endpoint=False)`, i.e. the i-th angle is
`i * (2*pi/count)`.  Finally `pd.concat(jittered, ignore_index=True)`
concatenates the groups — and raises when handed an empty list, which
happens exactly when `df` is empty; the `Option` result models that. -/

/-- One group of `df.groupby("Country")`: if the group is a singleton it is
appended unchanged; otherwise each row gets the linspace offsets added to
its own coordinates (lines 60-70). -/
def jitterGroup (sin cos : ℚ → ℚ) (pi : ℚ) (r : ℚ) (group : List Row) : List Row :=
  if group.length == 1 then group
  else
    group.enum.map (fun p =>
      let theta : ℚ := (p.1 : ℚ) * (2 * pi / (group.length : ℚ))
      { p.2 with
        latitude := p.2.latitude + r * sin theta
        longitude := p.2.longitude + r * cos theta })

/-- The group keys of `df.groupby("Country")`: the distinct values of the
`Country` column in ascending order. -/
def countryKeys (df : List Row) : List String :=
  List.insertionSort (fun a b => a ≤ b) (df.map Row.country).dedup

/-- Embedding of `apply_jitter(df, jitter_amount)` (lines 57-71): jitter each
country group and concatenate.  `pd.concat([])` raises, so the result is
`none` exactly when there is no group, i.e. when `df` is empty. -/
def apply_jitter (sin cos : ℚ → ℚ) (pi : ℚ) (df : List Row) (r : ℚ) :
    Option (List Row) :=
  let groups := (countryKeys df).map
    (fun c => jitterGroup sin cos pi r (df.filter (fun row => row.country == c)))
  if groups.isEmpty then none else some groups.flatten

/-- A sequence of calls to `apply_jitter`, in order: the script state carries
nothing between calls, so a call history is just the list of per-call
results.  Used to state that a call's output does not depend on the calls
made before it. -/
def runJitterCalls (sin cos : ℚ → ℚ) (pi : ℚ)
    (calls : List (List Row × ℚ)) : List (Option (List Row)) :=
  calls.map (fun p => apply_jitter sin cos pi p.1 p.2)

/-! ## Viewport state machine (lines 87-185)

Session state: `selected_country`, `zoom_override`, `rerun_trigger`
(lines 87-92).  One script execution (a render pass) runs top to bottom:
the selectbox and buttons update the state (lines 100-117), the viewport is
computed from the updated state (lines 122-129), and the end-of-script
block (lines 180-185) consumes the flags — when `rerun_trigger` is set it
is cleared and `st.experimental_rerun()` aborts the script (so the
`zoom_override` reset on lines 184-185 does not run in that pass) and the
script immediately runs again with no new user event. -/

/-- The "🌍 Show All" sentinel (line 88 and throughout). -/
def allSentinel : String := "🌍 Show All"

/-- The session state of lines 87-92. -/
structure SState where
  selected_country : String
  zoom_override : Bool
  rerun_trigger : Bool
deriving DecidableEq

/-- The one user interaction (at most) that a script execution reacts to. -/
inductive UserEvent where
  | noEvent
  | selectCountry (c : String)
  | zoomToAll
  | clearFilter
deriving DecidableEq

/-- The widget section (lines 100-117): the selectbox writes the selection
back to the session state (line 106; with no new selection it returns the
current one), the "Zoom to All" button sets `zoom_override` (line 112), and
the "Clear Filter" button sets the filter to the sentinel, `zoom_override`,
and `rerun_trigger` together (lines 115-117). -/
def applyWidgets (s : SState) (ev : UserEvent) : SState :=
  match ev with
  | .noEvent => s
  | .selectCountry c => { s with selected_country := c }
  | .zoomToAll => { s with zoom_override := true }
  | .clearFilter =>
    { selected_country := allSentinel, zoom_override := true, rerun_trigger := true }

/-- The map viewport handed to `pdk.ViewState` (lines 138-142). -/
structure Viewport where
  lat : ℚ
  lon : ℚ
  zoom : ℚ
deriving DecidableEq

/-- Embedding of the `.mean()` of a column. -/
def qmean (xs : List ℚ) : ℚ := xs.sum / (xs.length : ℚ)

/-- Embedding of `df_table` (line 122): the whole frame under the sentinel,
else the rows of the selected country. -/
def tableRows (df : List Row) (s : SState) : List Row :=
  if s.selected_country = allSentinel then df
  else df.filter (fun row => row.country == s.selected_country)

/-- Embedding of `should_zoom_out` (line 125). -/
def shouldZoomOut (s : SState) : Bool :=
  s.zoom_override || (s.selected_country == allSentinel)

/-- The viewport computation (lines 122-129): center = mean of `df_table`'s
coordinates, zoom = 1.2 when zooming out, else 3.5. -/
def computeViewport (df : List Row) (s : SState) : Viewport :=
  let dt := tableRows df s
  { lat := qmean (dt.map Row.latitude)
    lon := qmean (dt.map Row.longitude)
    zoom := if shouldZoomOut s then (12 : ℚ) / 10 else (35 : ℚ) / 10 }

/-- The end-of-script block (lines 180-185).  Returns the state after the
pass and whether `st.experimental_rerun()` was invoked.  When
`rerun_trigger` is set, it is cleared and the rerun aborts the script
before the `zoom_override` reset; otherwise a set `zoom_override` is
cleared. -/
def finishPass (s : SState) : SState × Bool :=
  if s.rerun_trigger then ({ s with rerun_trigger := false }, true)
  else if s.zoom_override then ({ s with zoom_override := false }, false)
  else (s, false)

/-- Everything observable about one script execution: the state the widgets
left (the state the viewport is computed from), the state after the
end-of-script block, the viewport handed to the map, and whether a rerun
was requested. -/
structure PassResult where
  mid : SState
  out : SState
  view : Viewport
  rerun : Bool
deriving DecidableEq

/-- One script execution (one render pass), top to bottom. -/
def renderPass (df : List Row) (s : SState) (ev : UserEvent) : PassResult :=
  let s1 := applyWidgets s ev
  let v := computeViewport df s1
  let fin := finishPass s1
  { mid := s1, out := fin.1, view := v, rerun := fin.2 }

/-- A complete user-visible render: one pass for the event, plus the
immediate extra pass `st.experimental_rerun()` causes when the first pass
requested it.  Returns the final state and the observed
(filter-at-computation-time, viewport) pairs in order. -/
def render (df : List Row) (s : SState) (ev : UserEvent) :
    SState × List (SState × Viewport) :=
  let p := renderPass df s ev
  if p.rerun then
    let p2 := renderPass df p.out UserEvent.noEvent
    (p2.out, [(p.mid, p.view), (p2.mid, p2.view)])
  else
    (p.out, [(p.mid, p.view)])

/-! ## Auxiliary definitions for the statements -/

/-- The descriptive fields of a row — everything except Latitude and
Longitude.  Used to state that jitter touches only the coordinates. -/
structure RowFacts where
  name : String
  manufacturer : String
  country : String
  maxLength : ℚ
deriving DecidableEq

/-- Project a row onto its descriptive fields. -/
def stripCoords (row : Row) : RowFacts :=
  { name := row.name
    manufacturer := row.manufacturer
    country := row.country
    maxLength := row.maxLength }

/-- Well-formed UTF-8 byte sequences (RFC 3629), stated independently of the
decoder: the same lead-byte/continuation ranges as `utf8Decode`, but as an
inductive predicate.  `utf8Decode` succeeds exactly on these. -/
inductive ValidUtf8 : List Nat → Prop where
  | nil : ValidUtf8 []
  | one {b : Nat} {rest : List Nat} :
      b ≤ 0x7F → ValidUtf8 rest → ValidUtf8 (b :: rest)
  | two {b b1 : Nat} {rest : List Nat} :
      0xC2 ≤ b → b ≤ 0xDF → isCont b1 = true → ValidUtf8 rest →
      ValidUtf8 (b :: b1 :: rest)
  | three {b b1 b2 : Nat} {rest : List Nat} :
      0xE0 ≤ b → b ≤ 0xEF → utf8Lead3Ok b b1 = true →
      isCont b2 = true → ValidUtf8 rest →
      ValidUtf8 (b :: b1 :: b2 :: rest)
  | four {b b1 b2 b3 : Nat} {rest : List Nat} :
      0xF0 ≤ b → b ≤ 0xF4 → utf8Lead4Ok b b1 = true →
      isCont b2 = true → isCont b3 = true → ValidUtf8 rest →
      ValidUtf8 (b :: b1 :: b2 :: b3 :: rest)

/-! ## Concrete data for closed statements

Closed counterexamples and witnesses need concrete values for the
trigonometric parameters; `qsin`, `qcos`, `qpi` are rational stand-ins (the
structural theorems above them hold for every interpretation, these pick one
so that closed statements can be evaluated). -/

/-- A concrete rational interpretation of `sin` for closed statements. -/
def qsin : ℚ → ℚ := fun _ => 0

/-- A concrete rational interpretation of `cos` for closed statements. -/
def qcos : ℚ → ℚ := fun _ => 1

/-- A concrete rational interpretation of `pi` for closed statements. -/
def qpi : ℚ := 355 / 113

/-- Concrete row: a UK vessel at the UK anchor (55.38, -3.44). -/
def ukA : Row := ⟨"Alpha", "X", "UK", 3, 5538 / 100, -344 / 100⟩

/-- Concrete row: a second UK vessel at the same anchor. -/
def ukB : Row := ⟨"Beta", "Y", "UK", 4, 5538 / 100, -344 / 100⟩

/-- Concrete row: a French vessel at (10, 20). -/
def frA : Row := ⟨"Gamma", "Z", "France", 5, 10, 20⟩

/-- Concrete raw row: country "Atlantis", both coordinate cells missing. -/
def atlantisRaw : RawRow := ⟨"Lost City", "A", "Atlantis", 1, none, none⟩

/-- Concrete raw row: a UK vessel with both coordinate cells present. -/
def ukRaw : RawRow := ⟨"Alpha", "X", "UK", 3, some (5538 / 100), some (-344 / 100)⟩

/-! ## Shared lemmas -/

lemma countryKeys_ne_nil (df : List Row) (hne : df ≠ []) : countryKeys df ≠ [] := by
  intro h
  have hperm := List.perm_insertionSort (fun a b : String => a ≤ b) (df.map Row.country).dedup
  rw [countryKeys] at h
  rw [h] at hperm
  have hd : (df.map Row.country).dedup = [] := hperm.symm.eq_nil
  rw [List.dedup_eq_nil, List.map_eq_nil_iff] at hd
  exact hne hd

lemma dedup_all_eq {l : List String} {c : String} (hne : l ≠ [])
    (hall : ∀ x ∈ l, x = c) : l.dedup = [c] := by
  induction l with
  | nil => exact absurd rfl hne
  | cons x xs ih =>
    have hx : x = c := hall x (List.mem_cons_self x xs)
    cases hxs : xs with
    | nil => subst hx; simp
    | cons y ys =>
      have hy : y = c := hall y (by rw [hxs]; simp)
      have hmem : x ∈ y :: ys := by
        rw [hx, ← hy]
        simp
      rw [List.dedup_cons_of_mem hmem]
      have hd := ih (by rw [hxs]; simp) (fun z hz => hall z (List.mem_cons_of_mem _ hz))
      rw [hxs] at hd
      exact hd

lemma countryKeys_const (df : List Row) (c : String) (hne : df ≠ [])
    (hall : ∀ row ∈ df, row.country = c) : countryKeys df = [c] := by
  have h1 : (df.map Row.country).dedup = [c] := by
    apply dedup_all_eq
    · simpa using hne
    · intro x hx
      obtain ⟨row, hrow, hxeq⟩ := List.mem_map.mp hx
      rw [← hxeq]
      exact hall row hrow
  rw [countryKeys, h1]
  simp [List.insertionSort, List.orderedInsert]

lemma apply_jitter_const_country (sin cos : ℚ → ℚ) (pi : ℚ) (r : ℚ)
    (df : List Row) (c : String) (hne : df ≠ [])
    (hall : ∀ row ∈ df, row.country = c) :
    apply_jitter sin cos pi df r = some (jitterGroup sin cos pi r df) := by
  have hk := countryKeys_const df c hne hall
  have hf : df.filter (fun row => row.country == c) = df :=
    List.filter_eq_self.mpr (fun row hrow => by simp [hall row hrow])
  simp [apply_jitter, hk, hf]

lemma jitterGroup_getElem? (sin cos : ℚ → ℚ) (pi : ℚ) (r : ℚ)
    (g : List Row) (hlen : g.length ≠ 1) (i : ℕ) (hi : i < g.length) :
    (jitterGroup sin cos pi r g)[i]? =
      some { g.get ⟨i, hi⟩ with
        latitude := (g.get ⟨i, hi⟩).latitude + r * sin ((i : ℚ) * (2 * pi / (g.length : ℚ)))
        longitude := (g.get ⟨i, hi⟩).longitude +
          r * cos ((i : ℚ) * (2 * pi / (g.length : ℚ))) } := by
  have hb : (g.length == 1) = false := by simp [hlen]
  simp only [jitterGroup, hb, Bool.false_eq_true, if_false]
  rw [List.getElem?_map, List.getElem?_enum, List.getElem?_eq_getElem hi]
  simp [List.get_eq_getElem]

lemma jitterGroup_map_strip (sin cos : ℚ → ℚ) (pi : ℚ) (r : ℚ) (g : List Row) :
    (jitterGroup sin cos pi r g).map stripCoords = g.map stripCoords := by
  by_cases h : (g.length == 1) = true
  · simp [jitterGroup, h]
  · have hb : (g.length == 1) = false := by simpa using h
    calc (jitterGroup sin cos pi r g).map stripCoords
        = g.enum.map (fun p => stripCoords p.2) := by
          simp only [jitterGroup, hb, Bool.false_eq_true, if_false, List.map_map]
          rfl
      _ = (g.enum.map Prod.snd).map stripCoords := by rw [List.map_map]; rfl
      _ = g.map stripCoords := by rw [List.enum_map_snd]

lemma flatten_filter_perm (keys : List String) (df : List Row)
    (hnd : keys.Nodup) (hcov : ∀ row ∈ df, row.country ∈ keys) :
    ((keys.map (fun c => df.filter (fun row => row.country == c))).flatten).Perm df := by
  induction keys generalizing df with
  | nil =>
    have hdf : df = [] := by
      cases df with
      | nil => rfl
      | cons a l => exact absurd (hcov a (by simp)) (by simp)
    subst hdf
    simp
  | cons c ks ih =>
    have hck : c ∉ ks := (List.nodup_cons.mp hnd).1
    have hndk : ks.Nodup := (List.nodup_cons.mp hnd).2
    have hmap : ks.map (fun c2 => df.filter (fun row => row.country == c2)) =
        ks.map (fun c2 =>
          (df.filter (fun row => !(row.country == c))).filter
            (fun row => row.country == c2)) := by
      apply List.map_congr_left
      intro c2 hc2
      have hcc : c2 ≠ c := fun h => hck (h ▸ hc2)
      rw [List.filter_filter]
      apply List.filter_congr
      intro row _
      by_cases h : row.country = c2
      · simp [h, hcc]
      · simp [h]
    have hcov2 : ∀ row ∈ df.filter (fun row => !(row.country == c)),
        row.country ∈ ks := by
      intro row hrow
      rw [List.mem_filter] at hrow
      have h1 := hcov row hrow.1
      have h2 : row.country ≠ c := by simpa using hrow.2
      rcases List.mem_cons.mp h1 with h | h
      · exact absurd h h2
      · exact h
    rw [List.map_cons, List.flatten_cons, hmap]
    refine (List.Perm.append_left _ (ih _ hndk hcov2)).trans ?_
    exact List.filter_append_perm (fun row => row.country == c) df

lemma countryKeys_nodup (df : List Row) : (countryKeys df).Nodup := by
  rw [countryKeys]
  exact (List.perm_insertionSort _ _).symm.nodup (List.nodup_dedup _)

lemma mem_countryKeys (df : List Row) (row : Row) (h : row ∈ df) :
    row.country ∈ countryKeys df := by
  rw [countryKeys, (List.perm_insertionSort _ _).mem_iff, List.mem_dedup]
  exact List.mem_map_of_mem _ h

/-! ## Claim theorems -/

/-- C7: every record whose country fails to resolve to an anchor (in this
version: a record whose Latitude or Longitude cell is missing, there being
no lookup table or geocoder) is excluded from the placed output entirely,
the failure is not fatal to the batch, and every resolvable record is still
placed: the output is exactly the placed image of the resolvable rows. -/
theorem load_data_drop_policy (rows : List RawRow) :
    (∀ pr ∈ load_data rows, ∃ raw, raw ∈ rows ∧ hasCoords raw = true ∧ pr = placeRow raw) ∧
    (∀ raw ∈ rows, hasCoords raw = true → placeRow raw ∈ load_data rows) ∧
    (load_data rows).length = (rows.filter hasCoords).length := by
  refine ⟨?_, ?_, ?_⟩
  · intro pr hpr
    simp only [load_data, List.mem_map, List.mem_filter] at hpr
    obtain ⟨raw, ⟨hraw, hc⟩, heq⟩ := hpr
    exact ⟨raw, hraw, hc, heq.symm⟩
  · intro raw hraw hc
    simp only [load_data, List.mem_map, List.mem_filter]
    exact ⟨raw, ⟨hraw, hc⟩, rfl⟩
  · simp [load_data]

/-- C7 witness: an "Atlantis" record with no usable coordinates is dropped
while the remaining UK record is still placed, with no batch-level error. -/
theorem load_data_drop_policy_witness :
    ukRaw ∈ [atlantisRaw, ukRaw] ∧ hasCoords ukRaw = true ∧
    placeRow ukRaw ∈ load_data [atlantisRaw, ukRaw] ∧
    load_data [atlantisRaw, ukRaw] = [⟨"Alpha", "X", "UK", 3, 5538 / 100, -344 / 100⟩] :=
  ⟨by simp, by simp [hasCoords, ukRaw],
   (load_data_drop_policy [atlantisRaw, ukRaw]).2.1 ukRaw (by simp) (by simp [hasCoords, ukRaw]),
   by simp [load_data, hasCoords, placeRow, atlantisRaw, ukRaw]⟩

/-- C6: the jitter operation is deterministic and history-free — in any two
call histories ending with the same `(df, r)` call, that call returns the
same value, namely the pure function of the inputs. -/
theorem apply_jitter_deterministic (sin cos : ℚ → ℚ) (pi : ℚ)
    (hist1 hist2 : List (List Row × ℚ)) (df : List Row) (r : ℚ) :
    (runJitterCalls sin cos pi (hist1 ++ [(df, r)])).getLast? =
      (runJitterCalls sin cos pi (hist2 ++ [(df, r)])).getLast? ∧
    (runJitterCalls sin cos pi (hist1 ++ [(df, r)])).getLast? =
      some (apply_jitter sin cos pi df r) := by
  constructor <;> simp [runJitterCalls, List.getLast?_concat]

/-- C8 counterexample: on the byte 0xFF the single utf-8 attempt fails and
the load is fatal, although the single-byte fallback decode succeeds — so
"fatal iff both the primary and the fallback attempts fail" is false of the
code (the code never attempts the fallback). -/
theorem load_decode_no_fallback_cex :
    load_decode [255] = none ∧
    load_decode_with_fallback [255] = some [255] ∧
    latin1Decode [255] = [255] := by decide

/-- C9 counterexample: a zero (or negative) jitter radius is not rejected:
`apply_jitter` raises no error and silently produces a layout — with radius
0 both UK records are placed exactly at the anchor. -/
theorem apply_jitter_zero_radius_cex :
    apply_jitter qsin qcos qpi [ukA, ukB] 0 = some [ukA, ukB] ∧
    apply_jitter qsin qcos qpi [ukA, ukB] (-1) ≠ none := by
  constructor <;>
    simp [apply_jitter, countryKeys, jitterGroup, ukA, ukB,
      List.insertionSort, List.orderedInsert, qsin, qcos, List.enum, List.enumFrom]

/-- C9 amended: `apply_jitter` performs no radius validation at all — for
every radius, zero and negative included, it returns a placed layout for
every nonempty input, never an error. -/
theorem apply_jitter_no_radius_validation (sin cos : ℚ → ℚ) (pi : ℚ)
    (df : List Row) (r : ℚ) (hne : df ≠ []) :
    ∃ out, apply_jitter sin cos pi df r = some out := by
  simp [apply_jitter, List.isEmpty_iff, List.map_eq_nil_iff, countryKeys_ne_nil df hne]

/-- C9 amended witness: at radius -1 on a one-row input the jitter returns a
layout. -/
theorem apply_jitter_no_radius_validation_witness :
    ([ukA] : List Row) ≠ [] ∧ ∃ out, apply_jitter qsin qcos qpi [ukA] (-1) = some out :=
  ⟨by simp, apply_jitter_no_radius_validation qsin qcos qpi [ukA] (-1) (by simp)⟩

/-- C2: the Clear Filter handler resets the filter to the ALL sentinel and
forces the wide zoom in the same transition: after the clear, the final
state carries the sentinel with both flags consumed, and every state
observed by a viewport computation during the clear (including the extra
rerun pass) pairs the ALL sentinel with the wide zoom 1.2 — never the
sentinel with the close zoom, nor a country filter with the wide viewport. -/
theorem clear_filter_atomic (df : List Row) (s : SState) :
    ((render df s UserEvent.clearFilter).1.selected_country = allSentinel) ∧
    ((render df s UserEvent.clearFilter).1.zoom_override = false) ∧
    ((render df s UserEvent.clearFilter).1.rerun_trigger = false) ∧
    (∀ o ∈ (render df s UserEvent.clearFilter).2,
      o.1.selected_country = allSentinel ∧ o.2.zoom = (12 : ℚ) / 10) := by
  simp [render, renderPass, applyWidgets, finishPass, computeViewport, shouldZoomOut]

/-- C2 witness: clearing from the FILTERED state ("France") observes exactly
two (sentinel, wide-zoom) pairs and ends on the sentinel. -/
theorem clear_filter_atomic_witness :
    ((render [ukA] ⟨"France", false, false⟩ UserEvent.clearFilter).2.map
       (fun o => (o.1.selected_country, o.2.zoom))) =
      [(allSentinel, (12 : ℚ) / 10), (allSentinel, (12 : ℚ) / 10)] ∧
    (render [ukA] ⟨"France", false, false⟩ UserEvent.clearFilter).1.selected_country =
      allSentinel :=
  ⟨by simp [render, renderPass, applyWidgets, finishPass, computeViewport, shouldZoomOut],
   (clear_filter_atomic [ukA] ⟨"France", false, false⟩).1⟩

/-- C3 counterexample: with country "France" selected and a zoom-to-all
pending (the claim's ALL state), the computed zoom is wide (1.2) but the
center is the mean of France's placed points, not the mean over all placed
points — refuting "the center is the mean over all placed points". -/
theorem viewport_pending_zoom_center_cex :
    (renderPass [ukA, ukB, frA] ⟨"France", false, false⟩ UserEvent.zoomToAll).view.zoom =
      (12 : ℚ) / 10 ∧
    (renderPass [ukA, ukB, frA] ⟨"France", false, false⟩ UserEvent.zoomToAll).view.lat =
      qmean (([ukA, ukB, frA].filter (fun row => row.country == "France")).map Row.latitude) ∧
    (renderPass [ukA, ukB, frA] ⟨"France", false, false⟩ UserEvent.zoomToAll).view.lat ≠
      qmean ([ukA, ukB, frA].map Row.latitude) := by
  refine ⟨?_, ?_, ?_⟩ <;>
    norm_num +decide [renderPass, applyWidgets, computeViewport, shouldZoomOut, tableRows,
      qmean, allSentinel, ukA, ukB, frA, finishPass]

/-- C3 amended: the viewport center always equals the mean of the displayed
(filtered) subset — the selected country's placed points under a country
filter (with zoom 3.5, or 1.2 when a zoom reset is pending), and all placed
points under the ALL sentinel (with zoom 1.2). -/
theorem viewport_amended (df : List Row) (s : SState) :
    (s.selected_country ≠ allSentinel →
      (computeViewport df s).lat =
        qmean ((df.filter (fun row => row.country == s.selected_country)).map Row.latitude) ∧
      (computeViewport df s).lon =
        qmean ((df.filter (fun row => row.country == s.selected_country)).map Row.longitude) ∧
      (computeViewport df s).zoom =
        (if s.zoom_override then (12 : ℚ) / 10 else (35 : ℚ) / 10)) ∧
    (s.selected_country = allSentinel →
      (computeViewport df s).lat = qmean (df.map Row.latitude) ∧
      (computeViewport df s).lon = qmean (df.map Row.longitude) ∧
      (computeViewport df s).zoom = (12 : ℚ) / 10) := by
  constructor
  · intro hne
    have hbe : (s.selected_country == allSentinel) = false := by
      simp [hne]
    simp [computeViewport, tableRows, shouldZoomOut, hne, hbe]
  · intro heq
    simp [computeViewport, tableRows, shouldZoomOut, heq]

/-- C3 amended witness: with "France" selected and no pending reset the
viewport is the France mean at close zoom 3.5. -/
theorem viewport_amended_witness :
    ((⟨"France", false, false⟩ : SState).selected_country ≠ allSentinel) ∧
    (computeViewport [ukA, ukB, frA] ⟨"France", false, false⟩).zoom = (35 : ℚ) / 10 ∧
    (computeViewport [ukA, ukB, frA] ⟨"France", false, false⟩).lat =
      qmean (([ukA, ukB, frA].filter (fun row => row.country == "France")).map Row.latitude) := by
  have h := (viewport_amended [ukA, ukB, frA] ⟨"France", false, false⟩).1 (by simp [allSentinel])
  exact ⟨by simp [allSentinel], by simpa using h.2.2, h.1⟩

/-- C4: a set zoom-reset flag is consumed exactly once — at the start of a
pass the rerun trigger is always clear, and from any such state with the
flag set, the pass it drives computes the wide zoom and clears the flag
without touching the filter, so the next pass with the same specific
country filter and no new reset computes the FILTERED close zoom 3.5. -/
theorem zoom_flag_consumed_once (df : List Row) (s : SState)
    (htr : s.rerun_trigger = false) (hov : s.zoom_override = true) :
    (renderPass df s UserEvent.noEvent).view.zoom = (12 : ℚ) / 10 ∧
    (renderPass df s UserEvent.noEvent).out.zoom_override = false ∧
    (renderPass df s UserEvent.noEvent).out.selected_country = s.selected_country ∧
    (s.selected_country ≠ allSentinel →
      (renderPass df (renderPass df s UserEvent.noEvent).out UserEvent.noEvent).view.zoom =
        (35 : ℚ) / 10) := by
  refine ⟨?_, ?_, ?_, ?_⟩
  · simp [renderPass, applyWidgets, computeViewport, shouldZoomOut, hov]
  · simp [renderPass, applyWidgets, finishPass, htr, hov]
  · simp [renderPass, applyWidgets, finishPass, htr, hov]
  · intro hne
    have hbe : (s.selected_country == allSentinel) = false := by simp [hne]
    simp [renderPass, applyWidgets, finishPass, computeViewport, shouldZoomOut, htr, hov, hbe]

/-- C4 witness: with "France" filtered and the flag set, the driven pass is
wide (1.2) and the following pass is back to close (3.5). -/
theorem zoom_flag_consumed_once_witness :
    ((⟨"France", true, false⟩ : SState).rerun_trigger = false) ∧
    ((⟨"France", true, false⟩ : SState).zoom_override = true) ∧
    (renderPass [frA] ⟨"France", true, false⟩ UserEvent.noEvent).view.zoom = (12 : ℚ) / 10 ∧
    (renderPass [frA] (renderPass [frA] ⟨"France", true, false⟩ UserEvent.noEvent).out
      UserEvent.noEvent).view.zoom = (35 : ℚ) / 10 := by
  have h := zoom_flag_consumed_once [frA] ⟨"France", true, false⟩ rfl rfl
  exact ⟨rfl, rfl, h.1, h.2.2.2 (by simp [allSentinel])⟩

/-- C5: re-rendering with unchanged filter state and no pending reset is
idempotent — a pass from a flag-free state leaves the state unchanged, and
the next pass over the same data produces the identical viewport. -/
theorem render_idempotent (df : List Row) (s : SState)
    (hov : s.zoom_override = false) (htr : s.rerun_trigger = false) :
    (renderPass df s UserEvent.noEvent).out = s ∧
    (renderPass df (renderPass df s UserEvent.noEvent).out UserEvent.noEvent).view =
      (renderPass df s UserEvent.noEvent).view ∧
    (renderPass df (renderPass df s UserEvent.noEvent).out UserEvent.noEvent).out =
      (renderPass df s UserEvent.noEvent).out := by
  have hout : (renderPass df s UserEvent.noEvent).out = s := by
    simp [renderPass, applyWidgets, finishPass, htr, hov]
  exact ⟨hout, by rw [hout], by rw [hout]; exact hout⟩

/-- C5 witness: two consecutive flag-free passes from the "France" state
agree on state and viewport. -/
theorem render_idempotent_witness :
    ((⟨"France", false, false⟩ : SState).zoom_override = false) ∧
    ((⟨"France", false, false⟩ : SState).rerun_trigger = false) ∧
    (renderPass [frA] ⟨"France", false, false⟩ UserEvent.noEvent).out =
      (⟨"France", false, false⟩ : SState) ∧
    (renderPass [frA] (renderPass [frA] ⟨"France", false, false⟩ UserEvent.noEvent).out
        UserEvent.noEvent).view =
      (renderPass [frA] ⟨"France", false, false⟩ UserEvent.noEvent).view := by
  have h := render_idempotent [frA] ⟨"France", false, false⟩ rfl rfl
  exact ⟨rfl, rfl, h.1, h.2.1⟩

/-- C1: a country group whose records all sit on the shared anchor
(lat0, lon0), jittered with radius r: a singleton group is returned
unchanged, and a group of size N > 1 has its i-th record placed exactly at
(lat0 + r·sin(2·π·i/N), lon0 + r·cos(2·π·i/N)) — N angles evenly spaced
over a full turn starting at angle 0, for every interpretation of sin, cos
and π. -/
theorem apply_jitter_shared_anchor (sin cos : ℚ → ℚ) (pi : ℚ) (r lat0 lon0 : ℚ)
    (c : String) (rows : List Row) (_hr : 0 < r) (hne : rows ≠ [])
    (hc : ∀ row ∈ rows, row.country = c)
    (hlat : ∀ row ∈ rows, row.latitude = lat0)
    (hlon : ∀ row ∈ rows, row.longitude = lon0) :
    ∃ out, apply_jitter sin cos pi rows r = some out ∧
      (rows.length = 1 → out = rows) ∧
      (1 < rows.length → ∀ i (hi : i < rows.length),
        out[i]? = some { rows.get ⟨i, hi⟩ with
          latitude := lat0 + r * sin (2 * pi * (i : ℚ) / (rows.length : ℚ))
          longitude := lon0 + r * cos (2 * pi * (i : ℚ) / (rows.length : ℚ)) }) := by
  refine ⟨jitterGroup sin cos pi r rows,
    apply_jitter_const_country sin cos pi r rows c hne hc, ?_, ?_⟩
  · intro h1
    simp [jitterGroup, h1]
  · intro hgt i hi
    have hlen : rows.length ≠ 1 := by omega
    rw [jitterGroup_getElem? sin cos pi r rows hlen i hi]
    have hth : (i : ℚ) * (2 * pi / (rows.length : ℚ)) =
        2 * pi * (i : ℚ) / (rows.length : ℚ) := by ring
    rw [hth, hlat _ (List.get_mem rows i hi), hlon _ (List.get_mem rows i hi)]

/-- C1 witness: two UK records on the anchor (55.38, -3.44) with radius 0.8:
the second placed record sits at the anchor plus the radius-scaled sine and
cosine of the angle 2·π·1/2. -/
theorem apply_jitter_shared_anchor_witness :
    (0 : ℚ) < 8 / 10 ∧ ([ukA, ukB] : List Row) ≠ [] ∧
    ∃ out, apply_jitter qsin qcos qpi [ukA, ukB] (8 / 10) = some out ∧
      out[1]? = some { ukB with
        latitude := 5538 / 100 + 8 / 10 * qsin (2 * qpi * (1 : ℚ) / 2)
        longitude := -344 / 100 + 8 / 10 * qcos (2 * qpi * (1 : ℚ) / 2) } := by
  obtain ⟨out, h1, _, h3⟩ :=
    apply_jitter_shared_anchor qsin qcos qpi (8 / 10) (5538 / 100) (-344 / 100) "UK"
      [ukA, ukB] (by norm_num) (by simp) (by simp [ukA, ukB]) (by simp [ukA, ukB])
      (by simp [ukA, ukB])
  have h4 := h3 (by norm_num) 1 (by norm_num)
  refine ⟨by norm_num, by simp, out, h1, ?_⟩
  rw [h4]
  norm_num [ukB, List.get]

/-- C10: the jitter operation touches only the coordinates — every
successful run returns exactly as many records as it was given, and the
descriptive fields (name, manufacturer, country, length) of the output are
a permutation of those of the input (the records are regrouped by country,
nothing else changes). -/
theorem apply_jitter_frame (sin cos : ℚ → ℚ) (pi : ℚ) (df : List Row) (r : ℚ)
    (hne : df ≠ []) :
    ∃ out, apply_jitter sin cos pi df r = some out ∧ out.length = df.length ∧
      (out.map stripCoords).Perm (df.map stripCoords) := by
  have hflat : apply_jitter sin cos pi df r =
      some (((countryKeys df).map
        (fun c => jitterGroup sin cos pi r
          (df.filter (fun row => row.country == c)))).flatten) := by
    simp [apply_jitter, List.isEmpty_iff, List.map_eq_nil_iff, countryKeys_ne_nil df hne]
  have key : (((countryKeys df).map
      (fun c => jitterGroup sin cos pi r
        (df.filter (fun row => row.country == c)))).flatten).map stripCoords =
      (((countryKeys df).map
        (fun c => df.filter (fun row => row.country == c))).flatten).map stripCoords := by
    rw [List.map_flatten, List.map_flatten, List.map_map, List.map_map]
    congr 1
    apply List.map_congr_left
    intro c _
    exact jitterGroup_map_strip sin cos pi r _
  have hperm := (flatten_filter_perm (countryKeys df) df (countryKeys_nodup df)
    (fun row h => mem_countryKeys df row h)).map stripCoords
  rw [← key] at hperm
  have hlen := hperm.length_eq
  rw [List.length_map, List.length_map] at hlen
  exact ⟨_, hflat, hlen, hperm⟩

/-- C10 witness: on a two-country input the jitter returns two records whose
descriptive fields are a permutation of the input's. -/
theorem apply_jitter_frame_witness :
    ([ukA, frA] : List Row) ≠ [] ∧
    ∃ out, apply_jitter qsin qcos qpi [ukA, frA] (8 / 10) = some out ∧
      out.length = ([ukA, frA] : List Row).length ∧
      (out.map stripCoords).Perm ([ukA, frA].map stripCoords) :=
  ⟨by simp, apply_jitter_frame qsin qcos qpi [ukA, frA] (8 / 10) (by simp)⟩

lemma utf8_aux : ∀ n : Nat, ∀ l : List Nat, l.length ≤ n →
    ((utf8Decode l).isSome = true ↔ ValidUtf8 l) := by
  intro n
  induction n with
  | zero =>
    intro l hl
    have hln : l = [] := by
      cases l with
      | nil => rfl
      | cons a t => simp at hl
    subst hln
    rw [utf8Decode]
    simp only [Option.isSome_some, true_iff]
    exact ValidUtf8.nil
  | succ n ih =>
    intro l hl
    rcases l with _ | ⟨b, rest⟩
    · rw [utf8Decode]
      simp only [Option.isSome_some, true_iff]
      exact ValidUtf8.nil
    · rw [utf8Decode]
      by_cases hb : b ≤ 127
      · rw [if_pos hb]
        simp only [Option.isSome_map']
        have hrl : rest.length ≤ n := by simp at hl; omega
        rw [ih rest hrl]
        constructor
        · exact fun h => ValidUtf8.one hb h
        · intro h
          cases h with
          | one h1 hrest => exact hrest
          | two h1 h2 h3 hrest => omega
          | three h1 h2 h3 h4 hrest => omega
          | four h1 h2 h3 h4 h5 hrest => omega
      · rw [if_neg hb]
        by_cases hb2 : (decide (194 ≤ b) && decide (b ≤ 223)) = true
        · rw [if_pos hb2]
          have hb2p : 194 ≤ b ∧ b ≤ 223 := by simpa using hb2
          rcases rest with _ | ⟨b1, rest1⟩
          · rw [utf8Two]
            simp only [Option.isSome_none, Bool.false_eq_true, false_iff]
            intro h
            cases h with
            | one h1 hrest => omega
          · rw [utf8Two]
            by_cases hc : isCont b1 = true
            · rw [if_pos hc]
              simp only [Option.isSome_map']
              have hrl : rest1.length ≤ n := by simp at hl; omega
              rw [ih rest1 hrl]
              constructor
              · exact fun h => ValidUtf8.two hb2p.1 hb2p.2 hc h
              · intro h
                cases h with
                | one h1 hrest => omega
                | two h1 h2 h3 hrest => exact hrest
                | three h1 h2 h3 h4 hrest => omega
                | four h1 h2 h3 h4 h5 hrest => omega
            · rw [if_neg hc]
              simp only [Option.isSome_none, Bool.false_eq_true, false_iff]
              intro h
              cases h with
              | one h1 hrest => omega
              | two h1 h2 h3 hrest => exact hc h3
              | three h1 h2 h3 h4 hrest => omega
              | four h1 h2 h3 h4 h5 hrest => omega
        · rw [if_neg hb2]
          by_cases hb3 : (decide (224 ≤ b) && decide (b ≤ 239)) = true
          · rw [if_pos hb3]
            have hb3p : 224 ≤ b ∧ b ≤ 239 := by simpa using hb3
            rcases rest with _ | ⟨b1, rest⟩
            · rw [utf8Three]
              simp only [Option.isSome_none, Bool.false_eq_true, false_iff]
              intro h
              cases h with
              | one h1 hrest => omega
            · rw [utf8Three]
              rcases rest with _ | ⟨b2, rest2⟩
              · rw [utf8ThreeB]
                simp only [Option.isSome_none, Bool.false_eq_true, false_iff]
                intro h
                cases h with
                | one h1 hrest => omega
                | two h1 h2 h3 hrest => omega
              · rw [utf8ThreeB]
                by_cases hcond : (utf8Lead3Ok b b1 && isCont b2) = true
                · rw [if_pos hcond]
                  simp only [Option.isSome_map']
                  have hcp := (Bool.and_eq_true _ _).mp hcond
                  have hrl : rest2.length ≤ n := by simp at hl; omega
                  rw [ih rest2 hrl]
                  constructor
                  · exact fun h => ValidUtf8.three hb3p.1 hb3p.2 hcp.1 hcp.2 h
                  · intro h
                    cases h with
                    | one h1 hrest => omega
                    | two h1 h2 h3 hrest => omega
                    | three h1 h2 h3 h4 hrest => exact hrest
                    | four h1 h2 h3 h4 h5 hrest => omega
                · rw [if_neg hcond]
                  simp only [Option.isSome_none, Bool.false_eq_true, false_iff]
                  intro h
                  cases h with
                  | one h1 hrest => omega
                  | two h1 h2 h3 hrest => omega
                  | three h1 h2 h3 h4 hrest => exact hcond (by simp [h3, h4])
                  | four h1 h2 h3 h4 h5 hrest => omega
          · rw [if_neg hb3]
            by_cases hb4 : (decide (240 ≤ b) && decide (b ≤ 244)) = true
            · rw [if_pos hb4]
              have hb4p : 240 ≤ b ∧ b ≤ 244 := by simpa using hb4
              rcases rest with _ | ⟨b1, rest⟩
              · rw [utf8Four]
                simp only [Option.isSome_none, Bool.false_eq_true, false_iff]
                intro h
                cases h with
                | one h1 hrest => omega
              · rw [utf8Four]
                rcases rest with _ | ⟨b2, rest⟩
                · rw [utf8FourB]
                  simp only [Option.isSome_none, Bool.false_eq_true, false_iff]
                  intro h
                  cases h with
                  | one h1 hrest => omega
                  | two h1 h2 h3 hrest => omega
                · rw [utf8FourB]
                  rcases rest with _ | ⟨b3, rest3⟩
                  · rw [utf8FourC]
                    simp only [Option.isSome_none, Bool.false_eq_true, false_iff]
                    intro h
                    cases h with
                    | one h1 hrest => omega
                    | two h1 h2 h3 hrest => omega
                    | three h1 h2 h3 h4 hrest => omega
                  · rw [utf8FourC]
                    by_cases hcond : (utf8Lead4Ok b b1 && isCont b2 && isCont b3) = true
                    · rw [if_pos hcond]
                      simp only [Option.isSome_map']
                      have hcp := (Bool.and_eq_true _ _).mp hcond
                      have hcp2 := (Bool.and_eq_true _ _).mp hcp.1
                      have hrl : rest3.length ≤ n := by simp at hl; omega
                      rw [ih rest3 hrl]
                      constructor
                      · exact fun h =>
                          ValidUtf8.four hb4p.1 hb4p.2 hcp2.1 hcp2.2 hcp.2 h
                      · intro h
                        cases h with
                        | one h1 hrest => omega
                        | two h1 h2 h3 hrest => omega
                        | three h1 h2 h3 h4 hrest => omega
                        | four h1 h2 h3 h4 h5 hrest => exact hrest
                    · rw [if_neg hcond]
                      simp only [Option.isSome_none, Bool.false_eq_true, false_iff]
                      intro h
                      cases h with
                      | one h1 hrest => omega
                      | two h1 h2 h3 hrest => omega
                      | three h1 h2 h3 h4 hrest => omega
                      | four h1 h2 h3 h4 h5 hrest => exact hcond (by simp [h3, h4, h5])
            · rw [if_neg hb4]
              simp only [Option.isSome_none, Bool.false_eq_true, false_iff]
              have hb2n : ¬(194 ≤ b ∧ b ≤ 223) := by simpa using hb2
              have hb3n : ¬(224 ≤ b ∧ b ≤ 239) := by simpa using hb3
              have hb4n : ¬(240 ≤ b ∧ b ≤ 244) := by simpa using hb4
              intro h
              cases h with
              | one h1 hrest => omega
              | two h1 h2 h3 hrest => omega
              | three h1 h2 h3 h4 hrest => omega
              | four h1 h2 h3 h4 h5 hrest => omega

lemma utf8Decode_isSome_iff (l : List Nat) :
    (utf8Decode l).isSome = true ↔ ValidUtf8 l :=
  utf8_aux l.length l le_rfl

/-- C8 amended: the load performs exactly one decode attempt, with the
primary encoding (utf-8); no fallback is tried, so the load is fatal if and
only if that single attempt fails, i.e. iff the bytes are not well-formed
UTF-8 — although the spec's single-byte fallback would have succeeded on
every input on which the primary attempt fails. -/
theorem load_decode_fatal_iff (bytes : List Nat) :
    (load_decode bytes = none ↔ ¬ ValidUtf8 bytes) ∧
    (utf8Decode bytes = none → load_decode_with_fallback bytes = some (latin1Decode bytes)) := by
  constructor
  · rw [← utf8Decode_isSome_iff bytes, load_decode]
    constructor
    · intro hn hs
      rw [hn] at hs
      simp at hs
    · intro hs
      cases hd : utf8Decode bytes with
      | none => rfl
      | some v => exact absurd (by rw [hd]; rfl) hs
  · intro hn
    simp [load_decode_with_fallback, hn]

/-- C8 amended witness: on the byte 0xFF the primary decode fails and the
spec's fallback would have returned the byte unchanged. -/
theorem load_decode_fatal_iff_witness :
    utf8Decode [255] = none ∧
    load_decode_with_fallback [255] = some (latin1Decode [255]) :=
  ⟨by decide, (load_decode_fatal_iff [255]).2 (by decide)⟩

end GlobalUSVs
